import Mathlib

/-!
A shallow embedding of the IREE task-graph scheduler core (`iree/task/task.c`,
present in this repository as `src/unnamed/part_001`).  The embedding follows
the C source line by line:

* `iree_status_t` is an intptr whose zero value means OK and whose non-zero
  values are owned error objects; it is modelled by `IreeStatus` where `.ok`
  plays the role of the zero pointer and `.err code id` an error object whose
  `id` distinguishes different error allocations carrying the same code.
* 32-bit unsigned machine arithmetic is modelled with `Nat`, taking the value
  modulo `2 ^ 32` exactly where the C computation can wrap (the shard tile
  cursor and the `uint32_t` workgroup-count products); everywhere else the
  source values are already bounded below `2 ^ 32` and plain `Nat` arithmetic
  coincides with the machine arithmetic.
* stateful task bookkeeping (`iree_task_retire`, `iree_task_discard`,
  `iree_task_call_execute`, ...) is modelled as explicit state passing over a
  `SchedState` record holding every task's header fields plus an event log.
-/

namespace IreeTask

/-- Status codes from `iree/base/api.h` that the task system uses. -/
inductive IreeStatusCode where
  | ok
  | aborted
  | resourceExhausted
  | invalidArgument
  | unknown (n : Nat)
deriving DecidableEq, Repr

/-- Type `iree_status_t`: an intptr, 0 = OK, otherwise a pointer to an owned error
object.  `id` stands for the identity (address) of the error object so that
distinct failures with the same code stay distinguishable, exactly as two
distinct error pointers are. -/
inductive IreeStatus where
  | ok
  | err (code : IreeStatusCode) (id : Nat)
deriving DecidableEq, Repr

/-- Predicate `iree_status_is_ok`: the status intptr is 0. -/
def iree_status_is_ok : IreeStatus → Bool
  | .ok => true
  | .err _ _ => false

/-- Constructor `iree_make_status(code, ...)`: allocate a fresh error object with the
given code (the message is irrelevant to control flow and not modelled). -/
def iree_make_status (code : IreeStatusCode) : IreeStatus :=
  .err code 0

/-- Source function `iree_task_try_set_status` (part_001:67-85): CAS the permanent status slot
from OK to the incoming status; if the incoming status is OK nothing happens,
and if the slot already holds a failure the incoming status is dropped
(`IREE_IGNORE_ERROR`).  First failure wins. -/
def iree_task_try_set_status (slot incoming : IreeStatus) : IreeStatus :=
  if incoming = .ok then slot
  else if slot = .ok then incoming
  else slot

@[simp] theorem iree_task_try_set_status_ok (slot : IreeStatus) :
    iree_task_try_set_status slot .ok = slot := rfl

/-! ## Dispatch grid arithmetic (slice mode)

`iree_task_dispatch_issue_sliced` (part_001:484-593) resolves the workgroup
count, computes per-axis slice counts and then walks slice space z-major,
creating one `SLICE` task per block with an inclusive `[workgroup_base,
workgroup_range]` box. -/

/-- A created `iree_task_dispatch_slice_t`'s iteration box: the fields written
by `iree_task_dispatch_slice_initialize` that determine which tiles it runs. -/
structure SliceSpec where
  baseX : Nat
  baseY : Nat
  baseZ : Nat
  rangeX : Nat
  rangeY : Nat
  rangeZ : Nat
deriving DecidableEq, Repr

/-- Per-axis slice count (part_001:526-528):
`slice_count = iree_max(1, workgroup_count / tiles_per_slice)`.
Note this is a floor division clamped below by 1, not a ceiling division. -/
def sliceCountAxis (count tilesPerSlice : Nat) : Nat :=
  max 1 (count / tilesPerSlice)

/-- The box of the slice at slice coordinates `(sx, sy, sz)`
(part_001:549-562): base is `slice * tiles_per_slice`, range is
`min(count, base + tiles_per_slice) - 1` inclusive, per axis. -/
def sliceBox (countX countY countZ tx ty tz sx sy sz : Nat) : SliceSpec :=
  { baseX := sx * tx
    baseY := sy * ty
    baseZ := sz * tz
    rangeX := min countX (sx * tx + tx) - 1
    rangeY := min countY (sy * ty + ty) - 1
    rangeZ := min countZ (sz * tz + tz) - 1 }

/-- All slice boxes created by the `iree_task_dispatch_issue_sliced` triple
loop (part_001:546-579), in creation order (z outermost, x innermost). -/
def sliceBoxes (countX countY countZ tx ty tz : Nat) : List SliceSpec :=
  (List.range (sliceCountAxis countZ tz)).flatMap fun sz =>
    (List.range (sliceCountAxis countY ty)).flatMap fun sy =>
      (List.range (sliceCountAxis countX tx)).map fun sx =>
        sliceBox countX countY countZ tx ty tz sx sy sz

/-- Tile `(x, y, z)` lies in the inclusive box of slice `s`. -/
def sliceContains (s : SliceSpec) (x y z : Nat) : Prop :=
  s.baseX ≤ x ∧ x ≤ s.rangeX ∧
  s.baseY ≤ y ∧ y ≤ s.rangeY ∧
  s.baseZ ≤ z ∧ z ≤ s.rangeZ

instance (s : SliceSpec) (x y z : Nat) : Decidable (sliceContains s x y z) := by
  unfold sliceContains; infer_instance

/-! ## Slice execution

`iree_task_dispatch_slice_execute` (part_001:765-855) walks its inclusive box
z-major, invoking the dispatch closure per tile; a failing tile stops the
iteration, the failure is CAS'd into the parent dispatch status and the slice
itself retires OK. -/

/-- The fields of `iree_task_dispatch_slice_t` that drive execution: the
iteration box and the `local_memory_size` copied from the parent dispatch
(part_001:739). -/
structure DispatchSliceTask where
  box : SliceSpec
  localMemorySize : Nat
deriving DecidableEq, Repr

/-- Source function `iree_task_dispatch_statistics_merge` (part_001:443-447).  The body of the
function is empty — `// TODO(benvanik): statistics.` — so the target is left
unchanged and the source counters are dropped.  The statistics block itself is
declared in `task.h` (absent from src); following the spec it is modelled as a
counter that tiles accumulate into. -/
def iree_task_dispatch_statistics_merge (source target : Nat) : Nat :=
  target

/-- The tile coordinates visited by the slice's triple loop
(part_001:807-811): z outermost and x innermost, each axis running over the
inclusive `[base, range]` interval. -/
def sliceTileList (s : SliceSpec) : List (Nat × Nat × Nat) :=
  (List.range' s.baseZ (s.rangeZ + 1 - s.baseZ)).flatMap fun z =>
    (List.range' s.baseY (s.rangeY + 1 - s.baseY)).flatMap fun y =>
      (List.range' s.baseX (s.rangeX + 1 - s.baseX)).map fun x => (x, y, z)

/-- The user closure seen by a tile: it receives the tile context (coordinates
and the statistics pointer) and returns a status; the `Nat` component is the
amount it adds to the tile-context statistics while running. -/
abbrev TileClosure := Nat × Nat × Nat → IreeStatus × Nat

/-- The tile loop of part_001:807-839: run the closure on each tile in order,
accumulating statistics, and bail out (`goto abort_slice`) on the first
non-OK closure result.  Returns the tiles actually invoked, the final loop
status, and the accumulated slice statistics. -/
def runTiles (closure : TileClosure) :
    List (Nat × Nat × Nat) → List (Nat × Nat × Nat) × IreeStatus × Nat
  | [] => ([], .ok, 0)
  | t :: rest =>
    let r := closure t
    if r.1 = .ok then
      let tail := runTiles closure rest
      (t :: tail.1, tail.2.1, r.2 + tail.2.2)
    else
      ([t], r.1, r.2)

/-- Result of one slice execution: the status handed to `iree_task_retire`,
the tiles whose closure ran, and the parent dispatch's status slot and
statistics after the slice pushed its aggregates up. -/
structure SliceExecResult where
  retire : IreeStatus
  invoked : List (Nat × Nat × Nat)
  dispatchStatus : IreeStatus
  dispatchStats : Nat
  sliceStats : Nat
deriving DecidableEq, Repr

/-- Source function `iree_task_dispatch_slice_execute` (part_001:765-855).  If the dispatch
requests more local memory than the worker provides, the slice retires with
RESOURCE_EXHAUSTED before any tile runs (part_001:787-796); otherwise the tile
loop runs, the slice statistics are merged into the dispatch statistics
(part_001:842-846), a failure is CAS'd into the parent dispatch status
(part_001:848-851) and the slice retires with OK (part_001:853). -/
def iree_task_dispatch_slice_execute (task : DispatchSliceTask)
    (localMemoryLength : Nat) (closure : TileClosure)
    (dispatchStatus : IreeStatus) (dispatchStats : Nat) : SliceExecResult :=
  if task.localMemorySize > localMemoryLength then
    { retire := iree_make_status .resourceExhausted
      invoked := []
      dispatchStatus := dispatchStatus
      dispatchStats := dispatchStats
      sliceStats := 0 }
  else
    let r := runTiles closure (sliceTileList task.box)
    let mergedStats := iree_task_dispatch_statistics_merge r.2.2 dispatchStats
    let newDispatchStatus :=
      if r.2.1 = .ok then dispatchStatus
      else iree_task_try_set_status dispatchStatus r.2.1
    { retire := .ok
      invoked := r.1
      dispatchStatus := newDispatchStatus
      dispatchStats := mergedStats
      sliceStats := r.2.2 }

/-- Running the tile loop on a list that starts with successful tiles and then
hits a failing tile invokes exactly the successful prefix plus the failing
tile, and reports the failing tile's status. -/
theorem runTiles_fail_split (closure : TileClosure) (f : Nat × Nat × Nat)
    (rest : List (Nat × Nat × Nat)) :
    ∀ good : List (Nat × Nat × Nat), (∀ t ∈ good, (closure t).1 = .ok) →
      (closure f).1 ≠ .ok →
      (runTiles closure (good ++ f :: rest)).1 = good ++ [f] ∧
      (runTiles closure (good ++ f :: rest)).2.1 = (closure f).1 := by
  intro good
  induction good with
  | nil =>
    intro _ hf
    simp [runTiles, hf]
  | cons t ts ih =>
    intro hok hf
    have ht : (closure t).1 = .ok := hok t (by simp)
    have ihs := ih (fun u hu => hok u (by simp [hu])) hf
    simp [runTiles, ht, ihs.1, ihs.2]

/-- C7.  When the per-worker memory check passes and some tile's closure
fails, the slice invokes exactly the tiles up to and including the first
failing one (iteration stops before any further tile), CAS's the failure into
the parent dispatch's status slot with first-writer-wins semantics
(`iree_task_try_set_status`), and retires itself with OK. -/
theorem c7_slice_tile_failure_stops_and_propagates
    (task : DispatchSliceTask) (localMemoryLength : Nat) (closure : TileClosure)
    (dispatchStatus : IreeStatus) (dispatchStats : Nat)
    (good : List (Nat × Nat × Nat)) (f : Nat × Nat × Nat)
    (rest : List (Nat × Nat × Nat))
    (hmem : ¬ task.localMemorySize > localMemoryLength)
    (hsplit : sliceTileList task.box = good ++ f :: rest)
    (hgood : ∀ t ∈ good, (closure t).1 = .ok)
    (hf : (closure f).1 ≠ .ok) :
    (iree_task_dispatch_slice_execute task localMemoryLength closure
        dispatchStatus dispatchStats).invoked = good ++ [f] ∧
    (iree_task_dispatch_slice_execute task localMemoryLength closure
        dispatchStatus dispatchStats).dispatchStatus =
      iree_task_try_set_status dispatchStatus (closure f).1 ∧
    (iree_task_dispatch_slice_execute task localMemoryLength closure
        dispatchStatus dispatchStats).retire = .ok := by
  have hrun := runTiles_fail_split closure f rest good hgood hf
  simp only [iree_task_dispatch_slice_execute, hmem, if_false, hsplit]
  simp [hrun.1, hrun.2, hf]

/-- Witness for C7: a 2×1×1 slice whose second tile fails; only the two tiles
up to the failure are invoked, the failure lands in the dispatch status slot
and the slice retires OK. -/
theorem c7_slice_tile_failure_stops_and_propagates_witness :
    (iree_task_dispatch_slice_execute ⟨⟨0, 0, 0, 2, 0, 0⟩, 4⟩ 4
        (fun t => if t.1 = 0 then (.ok, 0) else (.err (.unknown 7) 3, 0))
        .ok 0).invoked = [(0, 0, 0)] ++ [(1, 0, 0)] ∧
    (iree_task_dispatch_slice_execute ⟨⟨0, 0, 0, 2, 0, 0⟩, 4⟩ 4
        (fun t => if t.1 = 0 then (.ok, 0) else (.err (.unknown 7) 3, 0))
        .ok 0).dispatchStatus =
      iree_task_try_set_status .ok
        ((fun (t : Nat × Nat × Nat) =>
          if t.1 = 0 then ((.ok : IreeStatus), 0) else (.err (.unknown 7) 3, 0)) (1, 0, 0)).1 ∧
    (iree_task_dispatch_slice_execute ⟨⟨0, 0, 0, 2, 0, 0⟩, 4⟩ 4
        (fun t => if t.1 = 0 then (.ok, 0) else (.err (.unknown 7) 3, 0))
        .ok 0).retire = .ok :=
  c7_slice_tile_failure_stops_and_propagates
    ⟨⟨0, 0, 0, 2, 0, 0⟩, 4⟩ 4
    (fun t => if t.1 = 0 then (.ok, 0) else (.err (.unknown 7) 3, 0))
    .ok 0 [(0, 0, 0)] (1, 0, 0) [(2, 0, 0)]
    (by decide) (by decide) (by decide) (by decide)

/-- C8.  When the dispatch's `local_memory_size` exceeds the worker-provided
span, the slice retires with RESOURCE_EXHAUSTED and no tile closure runs. -/
theorem c8_slice_local_memory_exhausted
    (task : DispatchSliceTask) (localMemoryLength : Nat) (closure : TileClosure)
    (dispatchStatus : IreeStatus) (dispatchStats : Nat)
    (hmem : task.localMemorySize > localMemoryLength) :
    (iree_task_dispatch_slice_execute task localMemoryLength closure
        dispatchStatus dispatchStats).retire =
      iree_make_status .resourceExhausted ∧
    (iree_task_dispatch_slice_execute task localMemoryLength closure
        dispatchStatus dispatchStats).invoked = [] := by
  simp [iree_task_dispatch_slice_execute, hmem]

/-- Witness for C8: a slice requesting 16 bytes on a worker providing 8
retires RESOURCE_EXHAUSTED with no tiles invoked. -/
theorem c8_slice_local_memory_exhausted_witness :
    (iree_task_dispatch_slice_execute ⟨⟨0, 0, 0, 3, 3, 0⟩, 16⟩ 8
        (fun _ => (.ok, 1)) .ok 0).retire = iree_make_status .resourceExhausted ∧
    (iree_task_dispatch_slice_execute ⟨⟨0, 0, 0, 3, 3, 0⟩, 16⟩ 8
        (fun _ => (.ok, 1)) .ok 0).invoked = [] :=
  c8_slice_local_memory_exhausted ⟨⟨0, 0, 0, 3, 3, 0⟩, 16⟩ 8
    (fun _ => (.ok, 1)) .ok 0 (by decide)

/-- C9.  The spec claims per-slice statistics merge into the parent dispatch
on retire so the aggregate equals the sum across tiles.  The source's merge
function (part_001:443-447) has an empty body (`TODO(benvanik): statistics.`):
it leaves the target untouched, so a slice whose single tile records 1 unit of
statistics leaves the dispatch aggregate at 0 — the code drops the tile
statistics the spec says are aggregated. -/
theorem c9_statistics_merge_noop_drops_tile_statistics :
    (∀ source target : Nat,
        iree_task_dispatch_statistics_merge source target = target) ∧
    (iree_task_dispatch_slice_execute ⟨⟨0, 0, 0, 0, 0, 0⟩, 0⟩ 0
        (fun _ => (.ok, 1)) .ok 0).sliceStats = 1 ∧
    (iree_task_dispatch_slice_execute ⟨⟨0, 0, 0, 0, 0, 0⟩, 0⟩ 0
        (fun _ => (.ok, 1)) .ok 0).dispatchStats = 0 :=
  ⟨fun _ _ => rfl, by decide, by decide⟩

/-! ## Slice / shard allocation and the issue loops

`iree_task_dispatch_slice_allocate` (part_001:747-763) and
`iree_task_dispatch_shard_allocate` (part_001:872-886) acquire a task from a
pool; on acquire failure they call `iree_status_ignore(status)` and return
NULL.  The issue loops enqueue the returned pointer into the post batch
without a NULL check.  The pool itself (`iree/task/pool.c`) is not under
`src/`; following the spec (§4.2) an acquire either returns a zeroed slot or
fails with a status, modelled as an `Except` value supplied per allocation. -/

/-- Source function `iree_task_dispatch_slice_allocate` (part_001:747-763): on pool-acquire
failure the status is ignored and NULL (`none`) is returned; on success the
slice is initialized from the dispatch fields and its box.  Note the returned
value is the same `none` for every error status — the acquire error is
dropped. -/
def iree_task_dispatch_slice_allocate (acquireResult : Except IreeStatus Unit)
    (box : SliceSpec) (localMemorySize : Nat) : Option DispatchSliceTask :=
  match acquireResult with
  | .error _ => none
  | .ok _ => some { box := box, localMemorySize := localMemorySize }

/-- The fields of `iree_task_dispatch_shard_t` set by
`iree_task_dispatch_shard_initialize` (part_001:861-870): the back-pointers to
the parent dispatch and the shared shard state (identities only). -/
structure DispatchShardTask where
  dispatchTask : Nat
  sharedState : Nat
deriving DecidableEq, Repr

/-- Source function `iree_task_dispatch_shard_allocate` (part_001:872-886): same shape as the
slice allocation — acquire failure ignores the status and returns NULL. -/
def iree_task_dispatch_shard_allocate (acquireResult : Except IreeStatus Unit)
    (dispatchTask sharedState : Nat) : Option DispatchShardTask :=
  match acquireResult with
  | .error _ => none
  | .ok _ => some { dispatchTask := dispatchTask, sharedState := sharedState }

/-- One iteration of the slice-issue loop body (part_001:549-576): allocate
the slice for the current box (the pool is consulted once per created slice,
in creation order, hence the `st.2.2.length` index), append it to the post
batch for the current worker, and advance the `worker_index` /
`worker_slice_count` pair. -/
def slicedPostStep (workerCount slicesPerWorker localMemorySize : Nat)
    (pool : Nat → Except IreeStatus Unit)
    (st : Nat × Nat × List (Nat × Option DispatchSliceTask)) (box : SliceSpec) :
    Nat × Nat × List (Nat × Option DispatchSliceTask) :=
  let sliceTask :=
    iree_task_dispatch_slice_allocate (pool st.2.2.length) box localMemorySize
  let posted := st.2.2 ++ [(st.1 % workerCount, sliceTask)]
  if st.2.1 + 1 ≥ slicesPerWorker then (st.1 + 1, 0, posted)
  else (st.1, st.2.1 + 1, posted)

/-- Source function `iree_task_dispatch_issue_sliced` (part_001:484-593), as the pair of the
post batch it fills (worker index, slice task pointer — possibly NULL) and
whether the dispatch retires during the issue itself.  The workgroup count is
resolved directly or through the indirection pointer (part_001:497-504); the
`uint32_t` product of the counts is taken modulo `2 ^ 32`.  If the total
count is zero the dispatch retires immediately; otherwise one slice per box
is allocated and enqueued, and the trailing `slice_count == 0` retire check
(part_001:588-590) can never fire because every per-axis count is clamped to
at least 1. -/
def iree_task_dispatch_issue_sliced
    (workgroupCountValue workgroupCountPtr : Nat × Nat × Nat) (indirect : Bool)
    (tx ty tz workerCount workerOffset localMemorySize : Nat)
    (pool : Nat → Except IreeStatus Unit) :
    List (Nat × Option DispatchSliceTask) × Bool :=
  let wc := if indirect then workgroupCountPtr else workgroupCountValue
  let totalWorkgroupCount := (wc.1 * wc.2.1 * wc.2.2) % 2 ^ 32
  if totalWorkgroupCount = 0 then ([], true)
  else
    let sliceCount :=
      sliceCountAxis wc.1 tx * sliceCountAxis wc.2.1 ty * sliceCountAxis wc.2.2 tz
    let slicesPerWorker := max 1 (sliceCount / workerCount)
    let final := (sliceBoxes wc.1 wc.2.1 wc.2.2 tx ty tz).foldl
      (slicedPostStep workerCount slicesPerWorker localMemorySize pool)
      (workerOffset, 0, [])
    (final.2.2, sliceCount = 0)

/-- Source function `iree_task_dispatch_issue_sharded` (part_001:595-683): resolve the
workgroup count (collapsing an indirect dispatch to direct), set up the shared
state (`tile_index = 0`, `tile_count`, `tiles_per_reservation`) and spawn
`min(tile_count, worker_count)` shards round-robin from the randomized
offset.  The dispatch retires during issue iff the shard count is zero. -/
structure ShardIssueResult where
  tileCount : Nat
  tilesPerReservation : Nat
  posted : List (Nat × Option DispatchShardTask)
  retireNow : Bool
deriving Repr

/-- Constant `IREE_TASK_DISPATCH_MAX_TILES_PER_SHARD_RESERVATION` lives in
`iree/task/tuning.h`, absent from `src/`; it is kept as an explicit
`maxTilesPerReservation` parameter (the spec only calls it "the configured
maximum"). -/
def iree_task_dispatch_issue_sharded
    (workgroupCountValue workgroupCountPtr : Nat × Nat × Nat) (indirect : Bool)
    (workerCount workerOffset maxTilesPerReservation dispatchTask sharedState : Nat)
    (pool : Nat → Except IreeStatus Unit) : ShardIssueResult :=
  let wc := if indirect then workgroupCountPtr else workgroupCountValue
  let tileCount := (wc.1 * wc.2.1 * wc.2.2) % 2 ^ 32
  let shardCount := min tileCount workerCount
  let tilesPerReservation :=
    if tileCount < workerCount * maxTilesPerReservation then 1
    else maxTilesPerReservation
  let posted := (List.range shardCount).map fun i =>
    ((workerOffset + i) % workerCount,
      iree_task_dispatch_shard_allocate (pool i) dispatchTask sharedState)
  { tileCount := tileCount
    tilesPerReservation := tilesPerReservation
    posted := posted
    retireNow := shardCount = 0 }

/-- The slice-issue fold only ever appends to the post batch. -/
theorem slicedPostStep_foldl_prefix (workerCount slicesPerWorker lms : Nat)
    (pool : Nat → Except IreeStatus Unit) :
    ∀ (boxes : List SliceSpec) (st : Nat × Nat × List (Nat × Option DispatchSliceTask)),
      ∃ tail, (boxes.foldl (slicedPostStep workerCount slicesPerWorker lms pool) st).2.2
        = st.2.2 ++ tail := by
  intro boxes
  induction boxes with
  | nil => intro st; exact ⟨[], by simp⟩
  | cons b bs ih =>
    intro st
    obtain ⟨t, ht⟩ := ih (slicedPostStep workerCount slicesPerWorker lms pool st b)
    refine ⟨(slicedPostStep workerCount slicesPerWorker lms pool st b).2.2.drop st.2.2.length ++ t, ?_⟩
    have hstep : (slicedPostStep workerCount slicesPerWorker lms pool st b).2.2
        = st.2.2 ++ [(st.1 % workerCount,
            iree_task_dispatch_slice_allocate (pool st.2.2.length) b lms)] := by
      unfold slicedPostStep
      split <;> rfl
    simp only [List.foldl_cons, ht, hstep]
    simp

/-- The post batch built by the slice-issue fold holds, at position
`st.2.2.length + k`, exactly the pointer returned by the `k`-th allocation. -/
theorem slicedPostStep_foldl_get (workerCount slicesPerWorker lms : Nat)
    (pool : Nat → Except IreeStatus Unit) :
    ∀ (boxes : List SliceSpec) (st : Nat × Nat × List (Nat × Option DispatchSliceTask))
      (k : Nat) (hk : k < boxes.length),
      (((boxes.foldl (slicedPostStep workerCount slicesPerWorker lms pool) st).2.2).map
          Prod.snd)[st.2.2.length + k]?
        = some (iree_task_dispatch_slice_allocate (pool (st.2.2.length + k))
            (boxes.get ⟨k, hk⟩) lms) := by
  intro boxes
  induction boxes with
  | nil => intro st k hk; exact absurd hk (by simp)
  | cons b bs ih =>
    intro st k hk
    have hstep : (slicedPostStep workerCount slicesPerWorker lms pool st b).2.2
        = st.2.2 ++ [(st.1 % workerCount,
            iree_task_dispatch_slice_allocate (pool st.2.2.length) b lms)] := by
      unfold slicedPostStep
      split <;> rfl
    match k with
    | 0 =>
      obtain ⟨tail, htail⟩ := slicedPostStep_foldl_prefix workerCount slicesPerWorker lms pool
        bs (slicedPostStep workerCount slicesPerWorker lms pool st b)
      simp only [List.foldl_cons, htail, hstep, Nat.add_zero, List.append_assoc,
        List.map_append, List.map_cons, List.singleton_append]
      rw [List.getElem?_append_right (by simp)]
      simp
    | k + 1 =>
      have hk' : k < bs.length := by simpa using Nat.lt_of_succ_lt_succ hk
      have := ih (slicedPostStep workerCount slicesPerWorker lms pool st b) k hk'
      rw [hstep] at this
      simp only [List.foldl_cons]
      simp only [List.length_append, List.length_cons, List.length_nil] at this
      have harith : st.2.2.length + (k + 1) = st.2.2.length + 1 + k := by omega
      rw [harith]
      simpa using this

/-- The slice-issue fold creates one post-batch entry per box. -/
theorem slicedPostStep_foldl_length (workerCount slicesPerWorker lms : Nat)
    (pool : Nat → Except IreeStatus Unit) :
    ∀ (boxes : List SliceSpec) (st : Nat × Nat × List (Nat × Option DispatchSliceTask)),
      ((boxes.foldl (slicedPostStep workerCount slicesPerWorker lms pool) st).2.2).length
        = st.2.2.length + boxes.length := by
  intro boxes
  induction boxes with
  | nil => intro st; simp
  | cons b bs ih =>
    intro st
    have hstep : (slicedPostStep workerCount slicesPerWorker lms pool st b).2.2
        = st.2.2 ++ [(st.1 % workerCount,
            iree_task_dispatch_slice_allocate (pool st.2.2.length) b lms)] := by
      unfold slicedPostStep
      split <;> rfl
    simp only [List.foldl_cons, ih, hstep]
    simp only [List.length_append, List.length_cons, List.length_nil]
    omega

/-- C10.  A failed pool acquire makes `iree_task_dispatch_slice_allocate` /
`iree_task_dispatch_shard_allocate` return NULL with the acquire's error
status ignored (the result is the same `none` for every error value), and the
slice-issue loop enqueues the returned pointer into the post batch without a
NULL check: the batch keeps one entry per slice box and the entry for the
failed allocation is NULL. -/
theorem c10_pool_failure_null_enqueued
    (workgroupCountValue workgroupCountPtr : Nat × Nat × Nat) (indirect : Bool)
    (tx ty tz workerCount workerOffset lms : Nat)
    (pool : Nat → Except IreeStatus Unit) (e : IreeStatus) (k : Nat)
    (htotal : ¬ ((if indirect then workgroupCountPtr else workgroupCountValue).1 *
        (if indirect then workgroupCountPtr else workgroupCountValue).2.1 *
        (if indirect then workgroupCountPtr else workgroupCountValue).2.2) % 2 ^ 32 = 0)
    (hk : k < (sliceBoxes
        (if indirect then workgroupCountPtr else workgroupCountValue).1
        (if indirect then workgroupCountPtr else workgroupCountValue).2.1
        (if indirect then workgroupCountPtr else workgroupCountValue).2.2
        tx ty tz).length)
    (hpool : pool k = .error e) :
    (∀ (e' : IreeStatus) (b : SliceSpec) (l : Nat),
        iree_task_dispatch_slice_allocate (.error e') b l = none) ∧
    (∀ (e' : IreeStatus) (d s : Nat),
        iree_task_dispatch_shard_allocate (.error e') d s = none) ∧
    ((iree_task_dispatch_issue_sliced workgroupCountValue workgroupCountPtr indirect
        tx ty tz workerCount workerOffset lms pool).1.map Prod.snd)[k]? = some none ∧
    (iree_task_dispatch_issue_sliced workgroupCountValue workgroupCountPtr indirect
        tx ty tz workerCount workerOffset lms pool).1.length = (sliceBoxes
        (if indirect then workgroupCountPtr else workgroupCountValue).1
        (if indirect then workgroupCountPtr else workgroupCountValue).2.1
        (if indirect then workgroupCountPtr else workgroupCountValue).2.2
        tx ty tz).length := by
  refine ⟨fun _ _ _ => rfl, fun _ _ _ => rfl, ?_, ?_⟩
  · simp only [iree_task_dispatch_issue_sliced, if_neg htotal]
    have := slicedPostStep_foldl_get workerCount
      (max 1 ((sliceCountAxis (if indirect then workgroupCountPtr else workgroupCountValue).1 tx *
        sliceCountAxis (if indirect then workgroupCountPtr else workgroupCountValue).2.1 ty *
        sliceCountAxis (if indirect then workgroupCountPtr else workgroupCountValue).2.2 tz) /
        workerCount)) lms pool
      (sliceBoxes
        (if indirect then workgroupCountPtr else workgroupCountValue).1
        (if indirect then workgroupCountPtr else workgroupCountValue).2.1
        (if indirect then workgroupCountPtr else workgroupCountValue).2.2
        tx ty tz) (workerOffset, 0, []) k hk
    simp only [List.length_nil, Nat.zero_add] at this
    rw [hpool] at this
    simpa [iree_task_dispatch_slice_allocate] using this
  · simp only [iree_task_dispatch_issue_sliced, if_neg htotal]
    have := slicedPostStep_foldl_length workerCount
      (max 1 ((sliceCountAxis (if indirect then workgroupCountPtr else workgroupCountValue).1 tx *
        sliceCountAxis (if indirect then workgroupCountPtr else workgroupCountValue).2.1 ty *
        sliceCountAxis (if indirect then workgroupCountPtr else workgroupCountValue).2.2 tz) /
        workerCount)) lms pool
      (sliceBoxes
        (if indirect then workgroupCountPtr else workgroupCountValue).1
        (if indirect then workgroupCountPtr else workgroupCountValue).2.1
        (if indirect then workgroupCountPtr else workgroupCountValue).2.2
        tx ty tz) (workerOffset, 0, [])
    simpa using this

/-- Witness for C10: a direct 2×1×1 dispatch with 1×1×1 slice blocks (two
slices) on one worker, with the pool failing on the second acquire: the post
batch has two entries and the second is NULL. -/
theorem c10_pool_failure_null_enqueued_witness :
    ((iree_task_dispatch_issue_sliced (2, 1, 1) (0, 0, 0) false
        1 1 1 1 0 0 (fun n => if n = 1 then .error (.err .resourceExhausted 9) else .ok ())).1.map
        Prod.snd)[1]? = some none ∧
    (iree_task_dispatch_issue_sliced (2, 1, 1) (0, 0, 0) false
        1 1 1 1 0 0 (fun n => if n = 1 then .error (.err .resourceExhausted 9) else .ok ())).1.length
      = (sliceBoxes 2 1 1 1 1 1).length := by
  have h := c10_pool_failure_null_enqueued (2, 1, 1) (0, 0, 0) false
    1 1 1 1 0 0 (fun n => if n = 1 then .error (.err .resourceExhausted 9) else .ok ())
    (.err .resourceExhausted 9) 1 (by decide) (by decide) (by rfl)
  exact ⟨h.2.2.1, h.2.2.2⟩

/-! ## Task bookkeeping state machine

`iree_task_retire` (part_001:146-192), `iree_task_discard` (part_001:104-144)
and `iree_task_call_execute` (part_001:230-268) mutate a pointer graph of
task headers.  The graph is embedded as a map from task ids to header
records, together with the owning scope's permanent status and an event log
recording the externally visible calls (scope.fail, cleanup_fn invocations,
submission enqueues) in program order.  A task's user closure is modelled by
a script: invocation `n` returns the `n`-th scripted status and wires that
many nested tasks onto the call (raising its pending count), which is exactly
the interface contract of `iree_task_call_closure_t`. -/

abbrev TaskId := Nat

/-- Type `iree_task_type_t`. -/
inductive TType where
  | tNop
  | tCall
  | tBarrier
  | tFence
  | tWait
  | tDispatch
  | tDispatchSlice
  | tDispatchShard
deriving DecidableEq, Repr

/-- The `iree_task_t` header fields the retire/discard/execute machinery
reads and writes, plus the CALL body fields (`status` slot and closure) and
the bookkeeping needed to observe executions (`invokedCount`, `done`). -/
structure TaskRec where
  ttype : TType := .tNop
  abortedFlag : Bool := false
  pending : Nat := 0
  completion : Option TaskId := none
  dependents : List TaskId := []
  statusSlot : IreeStatus := .ok
  script : List (IreeStatus × Nat) := []
  invokedCount : Nat := 0
  done : Bool := false
deriving DecidableEq, Repr

/-- Externally visible calls made by the bookkeeping code, in program order:
`iree_task_scope_fail`, the `cleanup_fn(task, status_code)` callback, and
`iree_task_submission_enqueue`. -/
inductive Ev where
  | scopeFail (id : TaskId) (s : IreeStatus)
  | cleanup (id : TaskId) (code : IreeStatusCode)
  | enqueue (id : TaskId)
deriving DecidableEq, Repr

/-- The scheduler state: the task headers, the owning scope's permanent
status and outstanding counter, and the event log. -/
structure SchedState where
  tasks : TaskId → TaskRec
  scopeStatus : IreeStatus := .ok
  scopeOutstanding : Nat := 0
  events : List Ev := []

/-- Point update of one task's header. -/
def updateTask (st : SchedState) (id : TaskId) (f : TaskRec → TaskRec) :
    SchedState :=
  { st with tasks := Function.update st.tasks id (f (st.tasks id)) }

/-- Append one event to the log. -/
def emitEv (st : SchedState) (e : Ev) : SchedState :=
  { st with events := st.events ++ [e] }

/-- Modelled from the spec: `iree_task_scope_fail` lives in
`iree/task/scope.c`, which is not under `src/`.  Per spec §4.4 it CAS's the
scope's permanent-status slot from OK to the given status; the first failure
wins and later statuses are consumed by a no-op. -/
def iree_task_scope_fail (st : SchedState) (id : TaskId) (status : IreeStatus) :
    SchedState :=
  let st1 := emitEv st (.scopeFail id status)
  { st1 with scopeStatus := iree_task_try_set_status st1.scopeStatus status }

/-- Modelled from the spec: `iree_task_scope_end` (scope.c, not under
`src/`) decrements the outstanding counter (§4.4). -/
def iree_task_scope_end (st : SchedState) : SchedState :=
  { st with scopeOutstanding := st.scopeOutstanding - 1 }

/-- Source function `iree_task_cleanup` (part_001:87-102): invoke the optional cleanup
callback with the status code, then release the task to its pool — after
this the task memory is reclaimed, recorded here by `done := true`. -/
def iree_task_cleanup (st : SchedState) (id : TaskId) (code : IreeStatusCode) :
    SchedState :=
  updateTask (emitEv st (.cleanup id code)) id fun t => { t with done := true }

/-- Source function `iree_task_discard` (part_001:104-144): push the completion task and (for
barriers) the dependent tasks onto the front of the discard worklist (DFS
order), end the scope for fences, then clean the task up with ABORTED. -/
def iree_task_discard (st : SchedState) (id : TaskId) (worklist : List TaskId) :
    SchedState × List TaskId :=
  let t := st.tasks id
  let wl1 := match t.completion with
    | some c => c :: worklist
    | none => worklist
  let wl2 := match t.ttype with
    | .tBarrier => t.dependents.reverse ++ wl1
    | _ => wl1
  let st1 := match t.ttype with
    | .tFence => iree_task_scope_end st
    | _ => st
  (iree_task_cleanup st1 id .aborted, wl2)

/-- Modelled from the spec: `iree_task_list_discard` lives in
`iree/task/list.c`, not under `src/`.  Per spec §4.3/§4.6 it drains the
worklist LIFO, discarding each task (which pushes that task's own
downstream tasks back onto the worklist front).  The fuel bounds the drain
depth; any fuel at least the number of reachable tasks drains fully. -/
def iree_task_list_discard : Nat → SchedState → List TaskId → SchedState
  | 0, st, _ => st
  | _ + 1, st, [] => st
  | fuel + 1, st, id :: rest =>
    let r := iree_task_discard st id rest
    iree_task_list_discard fuel r.1 r.2

/-- Source function `iree_task_retire` (part_001:146-192): take and clear the completion
edge, decrement the completion task's pending count (noting whether the
prior value was 1), then either the OK path (cleanup with OK, enqueue the
newly ready completion task) or the failure path (scope.fail consumes the
status, cleanup with ABORTED, then discard the ready completion task through
a drained local worklist, or mark a still-pending completion task ABORTED). -/
def iree_task_retire (fuel : Nat) (st : SchedState) (id : TaskId)
    (status : IreeStatus) : SchedState :=
  let completionTask := (st.tasks id).completion
  let st1 := updateTask st id fun t => { t with completion := none }
  let priorPending := match completionTask with
    | some c => (st1.tasks c).pending
    | none => 0
  let st2 := match completionTask with
    | some c => updateTask st1 c fun t => { t with pending := t.pending - 1 }
    | none => st1
  let completionTaskReady := completionTask.isSome && (priorPending == 1)
  if status = .ok then
    let st3 := iree_task_cleanup st2 id .ok
    match completionTask with
    | some c => if completionTaskReady then emitEv st3 (.enqueue c) else st3
    | none => st3
  else
    let st3 := iree_task_scope_fail st2 id status
    let st4 := iree_task_cleanup st3 id .aborted
    match completionTask with
    | some c =>
      if completionTaskReady then
        let r := iree_task_discard st4 c []
        iree_task_list_discard fuel r.1 r.2
      else
        updateTask st4 c fun t => { t with abortedFlag := true }
    | none => st4

/-- Source function `iree_task_call_execute` (part_001:230-268): unless the ABORTED flag is
set, invoke the user closure (the next scripted step: its status is CAS'd
into the call's permanent status slot — `iree_task_try_set_status` is a no-op
for an OK status, matching the `!iree_status_is_ok` guard — and its nested
tasks raise the pending count).  Then, if no pending dependencies remain,
exchange the status slot for OK and retire with the captured status. -/
def iree_task_call_execute (fuel : Nat) (st : SchedState) (id : TaskId) :
    SchedState :=
  let st1 :=
    if (st.tasks id).abortedFlag then st
    else
      let r := (st.tasks id).script.getD (st.tasks id).invokedCount (.ok, 0)
      updateTask st id fun t =>
        { t with
            invokedCount := t.invokedCount + 1
            pending := t.pending + r.2
            statusSlot := iree_task_try_set_status t.statusSlot r.1 }
  if (st1.tasks id).pending = 0 then
    let captured := (st1.tasks id).statusSlot
    let st2 := updateTask st1 id fun t => { t with statusSlot := .ok }
    iree_task_retire fuel st2 id captured
  else
    st1

/-- Source function `iree_task_barrier_retire` (part_001:307-324): walk the dependents in
reverse (so they enqueue LIFO), decrement each pending count and enqueue the
ones whose prior count was 1, then retire the barrier with OK. -/
def iree_task_barrier_retire (fuel : Nat) (st : SchedState) (id : TaskId) :
    SchedState :=
  let st1 := (st.tasks id).dependents.reverse.foldl
    (fun acc dep =>
      let prior := (acc.tasks dep).pending
      let acc1 := updateTask acc dep fun t => { t with pending := t.pending - 1 }
      if prior = 1 then emitEv acc1 (.enqueue dep) else acc1)
    st
  iree_task_retire fuel st1 id .ok

/-- Source function `iree_task_fence_retire` (part_001:336-344): end the scope, then retire
with OK. -/
def iree_task_fence_retire (fuel : Nat) (st : SchedState) (id : TaskId) :
    SchedState :=
  iree_task_retire fuel (iree_task_scope_end st) id .ok

/-- Source function `iree_task_dispatch_retire` (part_001:685-711): merge the dispatch
statistics into the scope (a no-op, part_001:443-447), exchange the
dispatch's permanent status slot for OK and retire with the captured
status. -/
def iree_task_dispatch_retire (fuel : Nat) (st : SchedState) (id : TaskId) :
    SchedState :=
  let captured := (st.tasks id).statusSlot
  let st1 := updateTask st id fun t => { t with statusSlot := .ok }
  iree_task_retire fuel st1 id captured

/-- One scheduler step: a worker executes or retires some live task.  The
relation is deliberately generous — any live task may be stepped at any
time with any drain fuel and (for plain retires) any status — so theorems
quantified over it cover every interleaving the real executor can produce. -/
inductive SchedStep : SchedState → SchedState → Prop where
  | execCall (st : SchedState) (id : TaskId) (fuel : Nat) :
      (st.tasks id).done = false → SchedStep st (iree_task_call_execute fuel st id)
  | retireStep (st : SchedState) (id : TaskId) (fuel : Nat) (status : IreeStatus) :
      (st.tasks id).done = false → SchedStep st (iree_task_retire fuel st id status)
  | barrierRetire (st : SchedState) (id : TaskId) (fuel : Nat) :
      (st.tasks id).done = false → SchedStep st (iree_task_barrier_retire fuel st id)
  | fenceRetire (st : SchedState) (id : TaskId) (fuel : Nat) :
      (st.tasks id).done = false → SchedStep st (iree_task_fence_retire fuel st id)
  | dispatchRetire (st : SchedState) (id : TaskId) (fuel : Nat) :
      (st.tasks id).done = false → SchedStep st (iree_task_dispatch_retire fuel st id)

@[simp] theorem updateTask_tasks (st : SchedState) (id : TaskId)
    (f : TaskRec → TaskRec) (c : TaskId) :
    (updateTask st id f).tasks c = if c = id then f (st.tasks id) else st.tasks c :=
  Function.update_apply st.tasks id (f (st.tasks id)) c

@[simp] theorem updateTask_events (st : SchedState) (id : TaskId)
    (f : TaskRec → TaskRec) : (updateTask st id f).events = st.events := rfl

@[simp] theorem updateTask_scopeStatus (st : SchedState) (id : TaskId)
    (f : TaskRec → TaskRec) : (updateTask st id f).scopeStatus = st.scopeStatus := rfl

@[simp] theorem emitEv_tasks (st : SchedState) (e : Ev) :
    (emitEv st e).tasks = st.tasks := rfl

@[simp] theorem emitEv_events (st : SchedState) (e : Ev) :
    (emitEv st e).events = st.events ++ [e] := rfl

@[simp] theorem emitEv_scopeStatus (st : SchedState) (e : Ev) :
    (emitEv st e).scopeStatus = st.scopeStatus := rfl

@[simp] theorem scope_end_tasks (st : SchedState) :
    (iree_task_scope_end st).tasks = st.tasks := rfl

@[simp] theorem scope_end_events (st : SchedState) :
    (iree_task_scope_end st).events = st.events := rfl

@[simp] theorem scope_fail_tasks (st : SchedState) (id : TaskId) (s : IreeStatus) :
    (iree_task_scope_fail st id s).tasks = st.tasks := rfl

@[simp] theorem scope_fail_events (st : SchedState) (id : TaskId) (s : IreeStatus) :
    (iree_task_scope_fail st id s).events = st.events ++ [Ev.scopeFail id s] := rfl

@[simp] theorem scope_fail_scopeStatus (st : SchedState) (id : TaskId) (s : IreeStatus) :
    (iree_task_scope_fail st id s).scopeStatus
      = iree_task_try_set_status st.scopeStatus s := rfl

@[simp] theorem cleanup_events (st : SchedState) (id : TaskId) (code : IreeStatusCode) :
    (iree_task_cleanup st id code).events = st.events ++ [Ev.cleanup id code] := rfl

@[simp] theorem cleanup_scopeStatus (st : SchedState) (id : TaskId)
    (code : IreeStatusCode) :
    (iree_task_cleanup st id code).scopeStatus = st.scopeStatus := rfl

@[simp] theorem cleanup_tasks (st : SchedState) (id : TaskId) (code : IreeStatusCode)
    (c : TaskId) :
    (iree_task_cleanup st id code).tasks c
      = if c = id then { st.tasks id with done := true } else st.tasks c := by
  simp [iree_task_cleanup]

/-- A discard appends exactly one cleanup-with-ABORTED event. -/
theorem discard_events (st : SchedState) (id : TaskId) (wl : List TaskId) :
    (iree_task_discard st id wl).1.events = st.events ++ [Ev.cleanup id .aborted] := by
  unfold iree_task_discard
  cases h : (st.tasks id).ttype <;> simp [h]

/-- A discard updates only the discarded task's record, setting `done`. -/
theorem discard_tasks (st : SchedState) (id : TaskId) (wl : List TaskId) (c : TaskId) :
    (iree_task_discard st id wl).1.tasks c
      = if c = id then { st.tasks id with done := true } else st.tasks c := by
  unfold iree_task_discard
  cases h : (st.tasks id).ttype <;> simp [h, iree_task_scope_end]

/-- Draining a discard worklist only appends cleanup-with-ABORTED events;
in particular it never enqueues anything. -/
theorem list_discard_events (fuel : Nat) :
    ∀ (st : SchedState) (wl : List TaskId),
      ∃ evs, (iree_task_list_discard fuel st wl).events = st.events ++ evs ∧
        ∀ e ∈ evs, ∃ x, e = Ev.cleanup x .aborted := by
  induction fuel with
  | zero => intro st wl; exact ⟨[], by simp [iree_task_list_discard], by simp⟩
  | succ fuel ih =>
    intro st wl
    cases wl with
    | nil => exact ⟨[], by simp [iree_task_list_discard], by simp⟩
    | cons id rest =>
      obtain ⟨evs, hevs, hcl⟩ := ih (iree_task_discard st id rest).1
        (iree_task_discard st id rest).2
      refine ⟨[Ev.cleanup id .aborted] ++ evs, ?_, ?_⟩
      · simp only [iree_task_list_discard, hevs, discard_events, List.append_assoc]
      · intro e he
        rcases List.mem_append.mp he with h | h
        · exact ⟨id, by simpa using h⟩
        · exact hcl e h

/-- Draining a discard worklist never resurrects a task: a `done` task stays
`done`, the ABORTED flag is never cleared, and no closure is invoked. -/
theorem list_discard_tasks_mono (fuel : Nat) :
    ∀ (st : SchedState) (wl : List TaskId) (c : TaskId),
      ((iree_task_list_discard fuel st wl).tasks c).invokedCount
        = (st.tasks c).invokedCount ∧
      ((st.tasks c).abortedFlag = true ∨ (st.tasks c).done = true →
        ((iree_task_list_discard fuel st wl).tasks c).abortedFlag = true ∨
        ((iree_task_list_discard fuel st wl).tasks c).done = true) := by
  induction fuel with
  | zero => intro st wl c; simp [iree_task_list_discard]
  | succ fuel ih =>
    intro st wl c
    cases wl with
    | nil => simp [iree_task_list_discard]
    | cons id rest =>
      have hd := discard_tasks st id rest c
      obtain ⟨h1, h2⟩ := ih (iree_task_discard st id rest).1
        (iree_task_discard st id rest).2 c
      constructor
      · rw [iree_task_list_discard, h1, hd]
        split
        · next h => subst h; rfl
        · rfl
      · intro hc
        rw [iree_task_list_discard]
        apply h2
        rw [hd]
        split
        · right; rfl
        · exact hc

@[simp] theorem discard_scopeStatus (st : SchedState) (id : TaskId) (wl : List TaskId) :
    (iree_task_discard st id wl).1.scopeStatus = st.scopeStatus := by
  unfold iree_task_discard
  cases h : (st.tasks id).ttype <;> simp [h, iree_task_scope_end, iree_task_cleanup, updateTask]

theorem list_discard_done_mono (fuel : Nat) :
    ∀ (st : SchedState) (wl : List TaskId) (c : TaskId),
      (st.tasks c).done = true →
      ((iree_task_list_discard fuel st wl).tasks c).done = true := by
  induction fuel with
  | zero => intro st wl c h; simpa [iree_task_list_discard] using h
  | succ fuel ih =>
    intro st wl c h
    cases wl with
    | nil => simpa [iree_task_list_discard] using h
    | cons id rest =>
      rw [iree_task_list_discard]
      apply ih
      rw [discard_tasks]
      split
      · rfl
      · exact h

theorem list_discard_scopeStatus (fuel : Nat) :
    ∀ (st : SchedState) (wl : List TaskId),
      (iree_task_list_discard fuel st wl).scopeStatus = st.scopeStatus := by
  induction fuel with
  | zero => intro st wl; simp [iree_task_list_discard]
  | succ fuel ih =>
    intro st wl
    cases wl with
    | nil => simp [iree_task_list_discard]
    | cons id rest => rw [iree_task_list_discard, ih, discard_scopeStatus]

/-- Reduction of `iree_task_retire` on the failure path when a completion
task is present: scope.fail, cleanup with ABORTED, then discard-and-drain if
the completion's prior pending count was 1, else set its ABORTED flag. -/
theorem retire_fail_eq (fuel : Nat) (st : SchedState) (id c : TaskId)
    (status : IreeStatus) (hcomp : (st.tasks id).completion = some c)
    (hstatus : status ≠ .ok) :
    iree_task_retire fuel st id status =
      (let st2 := updateTask (updateTask st id fun t => { t with completion := none }) c
          fun t => { t with pending := t.pending - 1 }
       let st4 := iree_task_cleanup (iree_task_scope_fail st2 id status) id .aborted
       if (st.tasks c).pending == 1 then
         let r := iree_task_discard st4 c []
         iree_task_list_discard fuel r.1 r.2
       else updateTask st4 c fun t => { t with abortedFlag := true }) := by
  have hpend : ((updateTask st id fun t => { t with completion := none }).tasks c).pending
      = (st.tasks c).pending := by
    simp only [updateTask_tasks]
    split
    · next h => subst h; rfl
    · rfl
  unfold iree_task_retire
  simp only [hcomp, hpend, if_neg hstatus, Option.isSome_some, Bool.true_and]

/-- C3.  Retiring a task with a non-OK status calls `scope.fail` with that
status (which consumes it into the scope's first-failure slot) and then
`cleanup_fn` with ABORTED; afterwards the failure path only discards (it
never enqueues anything), and: if the completion task's pending count had
prior value 1 it is discarded through the drained local worklist (its
cleanup runs with ABORTED and it is dead), while a completion task whose
pending count had not reached 1 is marked with the ABORTED flag instead of
being enqueued. -/
theorem c3_retire_failure_path (fuel : Nat) (st : SchedState) (id c : TaskId)
    (status : IreeStatus) (hstatus : status ≠ .ok)
    (hcomp : (st.tasks id).completion = some c) :
    (∃ evs, (iree_task_retire fuel st id status).events
        = st.events ++ Ev.scopeFail id status :: Ev.cleanup id .aborted :: evs ∧
        ∀ x, Ev.enqueue x ∉ evs) ∧
    (iree_task_retire fuel st id status).scopeStatus
      = iree_task_try_set_status st.scopeStatus status ∧
    ((st.tasks c).pending = 1 →
      Ev.cleanup c .aborted ∈ (iree_task_retire fuel st id status).events ∧
      ((iree_task_retire fuel st id status).tasks c).done = true) ∧
    ((st.tasks c).pending ≠ 1 →
      ((iree_task_retire fuel st id status).tasks c).abortedFlag = true ∧
      ((iree_task_retire fuel st id status).tasks c).pending
        = (st.tasks c).pending - 1 ∧
      (iree_task_retire fuel st id status).events
        = st.events ++ [Ev.scopeFail id status, Ev.cleanup id .aborted]) := by
  rw [retire_fail_eq fuel st id c status hcomp hstatus]
  by_cases hp : (st.tasks c).pending = 1
  · have hcond : ((st.tasks c).pending == 1) = true := by simp [hp]
    simp only [hcond, if_true]
    obtain ⟨evs', hevs', hcl'⟩ := list_discard_events fuel
      (iree_task_discard (iree_task_cleanup (iree_task_scope_fail
        (updateTask (updateTask st id fun t => { t with completion := none }) c
          fun t => { t with pending := t.pending - 1 }) id status) id .aborted) c []).1
      (iree_task_discard (iree_task_cleanup (iree_task_scope_fail
        (updateTask (updateTask st id fun t => { t with completion := none }) c
          fun t => { t with pending := t.pending - 1 }) id status) id .aborted) c []).2
    rw [discard_events] at hevs'
    simp only [cleanup_events, scope_fail_events, updateTask_events, List.append_assoc] at hevs'
    refine ⟨⟨Ev.cleanup c .aborted :: evs', ?_, ?_⟩, ?_, ?_, fun h => absurd hp h⟩
    · simpa using hevs'
    · intro x hx
      rcases List.mem_cons.mp hx with h | h
      · exact absurd h.symm (by simp)
      · obtain ⟨y, hy⟩ := hcl' _ h
        exact absurd hy (by simp)
    · rw [list_discard_scopeStatus, discard_scopeStatus]
      simp
    · intro _
      constructor
      · rw [hevs']
        simp
      · apply list_discard_done_mono
        rw [discard_tasks]
        simp
  · have hcond : ((st.tasks c).pending == 1) = false := by simp [hp]
    simp only [hcond, Bool.false_eq_true, if_false]
    have hpend1 : ((updateTask st id fun t => { t with completion := none }).tasks c).pending
        = (st.tasks c).pending := by
      rw [updateTask_tasks]
      split
      · next h => subst h; rfl
      · rfl
    have hpend4 : ((iree_task_cleanup (iree_task_scope_fail
        (updateTask (updateTask st id fun t => { t with completion := none }) c
          fun t => { t with pending := t.pending - 1 }) id status) id .aborted).tasks c).pending
        = (st.tasks c).pending - 1 := by
      have h2 : ((updateTask (updateTask st id fun t => { t with completion := none }) c
          fun t => { t with pending := t.pending - 1 }).tasks c).pending
          = (st.tasks c).pending - 1 := by
        rw [updateTask_tasks, if_pos rfl]
        exact congrArg (· - 1) hpend1
      rw [cleanup_tasks]
      split
      · next h =>
        subst h
        rw [scope_fail_tasks]
        exact h2
      · rw [scope_fail_tasks]
        exact h2
    refine ⟨⟨[], by simp, by simp⟩, by simp, fun h => absurd h hp, fun _ => ⟨?_, ?_, by simp⟩⟩
    · rw [updateTask_tasks, if_pos rfl]
    · rw [updateTask_tasks, if_pos rfl]
      exact hpend4

/-- A concrete two-task graph: task 0 is a CALL whose completion task is
task 1, which still has 2 pending dependencies. -/
def c3WitnessState : SchedState :=
  { tasks := fun id =>
      if id = 0 then { ttype := .tCall, completion := some 1 }
      else if id = 1 then { ttype := .tCall, pending := 2 }
      else {}
    events := [] }

/-- Witness for C3 (not-yet-ready completion branch): retiring task 0 with a
failure in `c3WitnessState` emits scope.fail then cleanup-with-ABORTED and
marks completion task 1 ABORTED with its pending count decremented to 1,
without enqueuing anything. -/
theorem c3_retire_failure_path_witness :
    ((iree_task_retire 4 c3WitnessState 0 (.err (.unknown 5) 1)).tasks 1).abortedFlag = true ∧
    ((iree_task_retire 4 c3WitnessState 0 (.err (.unknown 5) 1)).tasks 1).pending = 1 ∧
    (iree_task_retire 4 c3WitnessState 0 (.err (.unknown 5) 1)).events
      = [Ev.scopeFail 0 (.err (.unknown 5) 1), Ev.cleanup 0 .aborted] := by
  have h := c3_retire_failure_path 4 c3WitnessState 0 1 (.err (.unknown 5) 1)
    (by decide) (by decide)
  have h4 := h.2.2.2 (by decide)
  exact ⟨h4.1, h4.2.1, by simpa using h4.2.2⟩

/-- An incoming failure always leaves the CAS'd status slot holding some
failure. -/
theorem try_set_status_ne_ok (slot e : IreeStatus) (he : e ≠ .ok) :
    iree_task_try_set_status slot e ≠ .ok := by
  unfold iree_task_try_set_status
  rw [if_neg he]
  split
  · exact he
  · next h => exact h

/-- Retiring with a non-OK status always reports the status to scope.fail,
runs the task's cleanup with ABORTED, and leaves the task dead — whatever the
completion edge looks like. -/
theorem retire_fail_observables (fuel : Nat) (st : SchedState) (id : TaskId)
    (status : IreeStatus) (hstatus : status ≠ .ok) :
    Ev.scopeFail id status ∈ (iree_task_retire fuel st id status).events ∧
    Ev.cleanup id .aborted ∈ (iree_task_retire fuel st id status).events ∧
    ((iree_task_retire fuel st id status).tasks id).done = true := by
  cases hcomp : (st.tasks id).completion with
  | none =>
    have hred : iree_task_retire fuel st id status
        = iree_task_cleanup (iree_task_scope_fail
            (updateTask st id fun t => { t with completion := none }) id status)
            id .aborted := by
      unfold iree_task_retire
      simp only [hcomp, if_neg hstatus, Option.isSome_none, Bool.false_and]
    rw [hred]
    refine ⟨by simp, by simp, by simp⟩
  | some c =>
    rw [retire_fail_eq fuel st id c status hcomp hstatus]
    by_cases hp : ((st.tasks c).pending == 1) = true
    · simp only [hp, if_true]
      obtain ⟨evs', hevs', _⟩ := list_discard_events fuel
        (iree_task_discard (iree_task_cleanup (iree_task_scope_fail
          (updateTask (updateTask st id fun t => { t with completion := none }) c
            fun t => { t with pending := t.pending - 1 }) id status) id .aborted) c []).1
        (iree_task_discard (iree_task_cleanup (iree_task_scope_fail
          (updateTask (updateTask st id fun t => { t with completion := none }) c
            fun t => { t with pending := t.pending - 1 }) id status) id .aborted) c []).2
      rw [discard_events] at hevs'
      simp only [cleanup_events, scope_fail_events, updateTask_events,
        List.append_assoc] at hevs'
      refine ⟨by simp [hevs'], by simp [hevs'], ?_⟩
      apply list_discard_done_mono
      rw [discard_tasks]
      split
      · rfl
      · simp
    · simp only [Bool.not_eq_true] at hp
      simp only [hp, Bool.false_eq_true, if_false]
      refine ⟨by simp, by simp, ?_⟩
      rw [updateTask_tasks]
      split
      · next h => subst h; simp
      · simp

/-- C5.  A CALL whose closure returns a non-OK status CAS's it into the
CALL's permanent status slot first-failure-wins
(`iree_task_try_set_status (st.tasks id).statusSlot e`); then, writing
`captured` for the slot's resulting value: if no nested tasks were wired
(`pending` reloading as zero) the task retires now with the captured status
(scope.fail sees it, cleanup runs, the task is dead); if nested tasks keep
`pending` positive the task is not retired by this execution — the event log
is untouched, the slot keeps the captured status and the task stays alive —
and a later execution that finds `pending` drained to zero (its re-issued
closure returning OK wires nothing and cannot displace the captured status)
retires with that same captured status. -/
theorem c5_call_failure_capture (fuel : Nat) (st : SchedState) (id : TaskId)
    (e : IreeStatus) (k : Nat)
    (hflag : (st.tasks id).abortedFlag = false)
    (hscript : (st.tasks id).script.getD (st.tasks id).invokedCount (.ok, 0) = (e, k))
    (he : e ≠ .ok)
    (hpending : (st.tasks id).pending = 0) :
    (k = 0 →
      Ev.scopeFail id (iree_task_try_set_status (st.tasks id).statusSlot e)
        ∈ (iree_task_call_execute fuel st id).events ∧
      Ev.cleanup id .aborted ∈ (iree_task_call_execute fuel st id).events ∧
      ((iree_task_call_execute fuel st id).tasks id).done = true) ∧
    (k ≠ 0 →
      (iree_task_call_execute fuel st id).events = st.events ∧
      ((iree_task_call_execute fuel st id).tasks id).statusSlot
        = iree_task_try_set_status (st.tasks id).statusSlot e ∧
      ((iree_task_call_execute fuel st id).tasks id).pending = k ∧
      ((iree_task_call_execute fuel st id).tasks id).invokedCount
        = (st.tasks id).invokedCount + 1 ∧
      ((iree_task_call_execute fuel st id).tasks id).done = (st.tasks id).done) ∧
    (∀ (fuel₂ : Nat) (st₂ : SchedState),
      (st₂.tasks id).abortedFlag = false →
      (st₂.tasks id).script.getD (st₂.tasks id).invokedCount (.ok, 0) = (.ok, 0) →
      (st₂.tasks id).pending = 0 →
      (st₂.tasks id).statusSlot = iree_task_try_set_status (st.tasks id).statusSlot e →
      Ev.scopeFail id (iree_task_try_set_status (st.tasks id).statusSlot e)
        ∈ (iree_task_call_execute fuel₂ st₂ id).events ∧
      ((iree_task_call_execute fuel₂ st₂ id).tasks id).done = true) := by
  have hcap := try_set_status_ne_ok (st.tasks id).statusSlot e he
  rw [List.getD_eq_getElem?_getD] at hscript
  refine ⟨?_, ?_, ?_⟩
  · intro hk
    subst hk
    have hred : iree_task_call_execute fuel st id
        = iree_task_retire fuel
            (updateTask (updateTask st id fun t =>
              { t with
                  invokedCount := t.invokedCount + 1
                  pending := t.pending + 0
                  statusSlot := iree_task_try_set_status t.statusSlot e })
              id fun t => { t with statusSlot := .ok })
            id (iree_task_try_set_status (st.tasks id).statusSlot e) := by
      unfold iree_task_call_execute
      simp [hflag, hscript, hpending]
    rw [hred]
    have hobs := retire_fail_observables fuel
      (updateTask (updateTask st id fun t =>
        { t with
            invokedCount := t.invokedCount + 1
            pending := t.pending + 0
            statusSlot := iree_task_try_set_status t.statusSlot e })
        id fun t => { t with statusSlot := .ok })
      id (iree_task_try_set_status (st.tasks id).statusSlot e) hcap
    simpa using hobs
  · intro hk
    have hred : iree_task_call_execute fuel st id
        = updateTask st id fun t =>
            { t with
                invokedCount := t.invokedCount + 1
                pending := t.pending + k
                statusSlot := iree_task_try_set_status t.statusSlot e } := by
      unfold iree_task_call_execute
      simp [hflag, hscript, hpending, hk]
    rw [hred]
    refine ⟨by simp, ?_, ?_, ?_, ?_⟩ <;> rw [updateTask_tasks, if_pos rfl] <;>
      simp [hpending]
  · intro fuel₂ st₂ hflag₂ hscript₂ hpending₂ hslot₂
    rw [List.getD_eq_getElem?_getD] at hscript₂
    have hred : iree_task_call_execute fuel₂ st₂ id
        = iree_task_retire fuel₂
            (updateTask (updateTask st₂ id fun t =>
              { t with
                  invokedCount := t.invokedCount + 1
                  pending := t.pending + 0
                  statusSlot := iree_task_try_set_status t.statusSlot .ok })
              id fun t => { t with statusSlot := .ok })
            id (iree_task_try_set_status (st.tasks id).statusSlot e) := by
      unfold iree_task_call_execute
      simp [hflag₂, hscript₂, hpending₂, hslot₂]
    rw [hred]
    have hobs := retire_fail_observables fuel₂
      (updateTask (updateTask st₂ id fun t =>
        { t with
            invokedCount := t.invokedCount + 1
            pending := t.pending + 0
            statusSlot := iree_task_try_set_status t.statusSlot .ok })
        id fun t => { t with statusSlot := .ok })
      id (iree_task_try_set_status (st.tasks id).statusSlot e) hcap
    exact ⟨hobs.1, hobs.2.2⟩

/-- A single CALL task (id 7) whose first closure invocation fails with a
user status while wiring two nested tasks. -/
def c5WitnessState : SchedState :=
  { tasks := fun id =>
      if id = 7 then
        { ttype := .tCall, script := [(.err (.unknown 3) 0, 2), (.ok, 0)] }
      else {}
    events := [] }

/-- Witness for C5 (nested-work branch): executing task 7 captures the
failure in the status slot, leaves the task alive with 2 pending nested
dependencies, and retires nothing. -/
theorem c5_call_failure_capture_witness :
    (iree_task_call_execute 3 c5WitnessState 7).events = c5WitnessState.events ∧
    ((iree_task_call_execute 3 c5WitnessState 7).tasks 7).statusSlot
      = iree_task_try_set_status (c5WitnessState.tasks 7).statusSlot
          (.err (.unknown 3) 0) ∧
    ((iree_task_call_execute 3 c5WitnessState 7).tasks 7).pending = 2 := by
  have h := c5_call_failure_capture 3 c5WitnessState 7 (.err (.unknown 3) 0) 2
    (by decide) (by decide) (by decide) (by decide)
  have h2 := h.2.1 (by decide)
  exact ⟨h2.1, h2.2.1, h2.2.2.1⟩

/-- Retiring with OK when the completion task's pending count is exactly 1:
cleanup runs with OK and the completion task, now at pending 0, is enqueued
into the pending submission. -/
theorem retire_ok_ready_observables (fuel : Nat) (st : SchedState) (id c : TaskId)
    (hcomp : (st.tasks id).completion = some c)
    (hpend : (st.tasks c).pending = 1) :
    (iree_task_retire fuel st id .ok).events
      = st.events ++ [Ev.cleanup id .ok, Ev.enqueue c] ∧
    ((iree_task_retire fuel st id .ok).tasks c).pending = 0 ∧
    (iree_task_retire fuel st id .ok).scopeStatus = st.scopeStatus := by
  have hpend1 : ((updateTask st id fun t => { t with completion := none }).tasks c).pending
      = (st.tasks c).pending := by
    rw [updateTask_tasks]
    split
    · next h => subst h; rfl
    · rfl
  have hred : iree_task_retire fuel st id .ok
      = emitEv (iree_task_cleanup
          (updateTask (updateTask st id fun t => { t with completion := none }) c
            fun t => { t with pending := t.pending - 1 }) id .ok) (.enqueue c) := by
    unfold iree_task_retire
    simp only [hcomp, hpend1, hpend]
    simp
  have h2 : ((updateTask (updateTask st id fun t => { t with completion := none }) c
      fun t => { t with pending := t.pending - 1 }).tasks c).pending = 0 := by
    rw [updateTask_tasks, if_pos rfl]
    show ((updateTask st id fun t => { t with completion := none }).tasks c).pending - 1 = 0
    rw [hpend1, hpend]
  rw [hred]
  refine ⟨by simp, ?_, by simp⟩
  simp only [emitEv_tasks, cleanup_tasks]
  split
  · next h => subst h; exact h2
  · exact h2

/-- C6.  A dispatch whose resolved workgroup count is (0, 0, 0) — directly
or through an indirect workgroup-count pointer read at issue time — creates
no SLICE or SHARD task in either issue mode and retires immediately; the
retire runs with the OK status (the permanent slot held OK), its cleanup runs
with OK, the scope sees no failure, and the completion task's pending count
drops to 0 and it is enqueued (becomes ready). -/
theorem c6_zero_workgroup_dispatch
    (workgroupCountValue workgroupCountPtr : Nat × Nat × Nat) (indirect : Bool)
    (tx ty tz workerCount workerOffset lms maxTPR dt ss : Nat)
    (pool : Nat → Except IreeStatus Unit)
    (fuel : Nat) (st : SchedState) (id c : TaskId)
    (hzero : (if indirect then workgroupCountPtr else workgroupCountValue) = (0, 0, 0))
    (hslot : (st.tasks id).statusSlot = .ok)
    (hcomp : (st.tasks id).completion = some c)
    (hpend : (st.tasks c).pending = 1) :
    (iree_task_dispatch_issue_sliced workgroupCountValue workgroupCountPtr indirect
        tx ty tz workerCount workerOffset lms pool) = ([], true) ∧
    (iree_task_dispatch_issue_sharded workgroupCountValue workgroupCountPtr indirect
        workerCount workerOffset maxTPR dt ss pool).posted = [] ∧
    (iree_task_dispatch_issue_sharded workgroupCountValue workgroupCountPtr indirect
        workerCount workerOffset maxTPR dt ss pool).retireNow = true ∧
    (iree_task_dispatch_retire fuel st id).events
      = st.events ++ [Ev.cleanup id .ok, Ev.enqueue c] ∧
    ((iree_task_dispatch_retire fuel st id).tasks c).pending = 0 ∧
    (iree_task_dispatch_retire fuel st id).scopeStatus = st.scopeStatus := by
  have hred : iree_task_dispatch_retire fuel st id
      = iree_task_retire fuel (updateTask st id fun t => { t with statusSlot := .ok })
          id .ok := by
    unfold iree_task_dispatch_retire
    simp only [hslot]
  have hcomp' : ((updateTask st id fun t => { t with statusSlot := .ok }).tasks id).completion
      = some c := by
    rw [updateTask_tasks, if_pos rfl]
    exact hcomp
  have hpend' : ((updateTask st id fun t => { t with statusSlot := .ok }).tasks c).pending
      = 1 := by
    rw [updateTask_tasks]
    split
    · next h => subst h; exact hpend
    · exact hpend
  have hobs := retire_ok_ready_observables fuel
    (updateTask st id fun t => { t with statusSlot := .ok }) id c hcomp' hpend'
  refine ⟨?_, ?_, ?_, ?_, ?_, ?_⟩
  · simp [iree_task_dispatch_issue_sliced, hzero]
  · simp [iree_task_dispatch_issue_sharded, hzero]
  · simp [iree_task_dispatch_issue_sharded, hzero]
  · rw [hred]
    simpa using hobs.1
  · rw [hred]
    exact hobs.2.1
  · rw [hred]
    simpa using hobs.2.2

/-- A dispatch task (id 2) whose completion task (id 3) has one pending
dependency. -/
def c6WitnessState : SchedState :=
  { tasks := fun id =>
      if id = 2 then { ttype := .tDispatch, completion := some 3 }
      else if id = 3 then { ttype := .tCall, pending := 1 }
      else {}
    events := [] }

/-- Witness for C6: an indirect dispatch (task 2, completion task 3 with one
pending dependency) whose pointer resolves to (0, 0, 0): both issue modes
create nothing and retiring the dispatch enqueues task 3 at pending 0. -/
theorem c6_zero_workgroup_dispatch_witness :
    (iree_task_dispatch_issue_sliced (5, 5, 5) (0, 0, 0) true
        1 1 1 4 0 0 (fun _ => .ok ())) = ([], true) ∧
    (iree_task_dispatch_issue_sharded (5, 5, 5) (0, 0, 0) true
        4 0 8 2 0 (fun _ => .ok ())).posted = [] ∧
    (iree_task_dispatch_retire 4 c6WitnessState 2).events
      = [Ev.cleanup 2 .ok, Ev.enqueue 3] ∧
    ((iree_task_dispatch_retire 4 c6WitnessState 2).tasks 3).pending = 0 := by
  have h := c6_zero_workgroup_dispatch (5, 5, 5) (0, 0, 0) true
    1 1 1 4 0 0 8 2 0 (fun _ => .ok ()) 4 c6WitnessState 2 3
    (by decide) (by decide) (by decide) (by decide)
  exact ⟨h.1, h.2.1, by simpa using h.2.2.2.1, h.2.2.2.2.1⟩

/-! ## Abort propagation (C4)

The discard-closure property is a trace property: once a task is flagged
ABORTED or dead, no later scheduler step may run its closure.  The lemmas
below show every bookkeeping operation preserves "flagged-or-dead" and never
touches the closure-invocation count of such a task. -/

/-- Predicate `TaskMonoAt st st' c`: the transformation from `st` to `st'` left task
`c`'s closure-invocation count unchanged and did not clear its
flagged-or-dead property. -/
def TaskMonoAt (st st' : SchedState) (c : TaskId) : Prop :=
  (st'.tasks c).invokedCount = (st.tasks c).invokedCount ∧
  ((st.tasks c).abortedFlag = true ∨ (st.tasks c).done = true →
    (st'.tasks c).abortedFlag = true ∨ (st'.tasks c).done = true)

theorem taskMonoAt_refl (st : SchedState) (c : TaskId) : TaskMonoAt st st c :=
  ⟨rfl, fun h => h⟩

theorem taskMonoAt_trans {st1 st2 st3 : SchedState} {c : TaskId}
    (h12 : TaskMonoAt st1 st2 c) (h23 : TaskMonoAt st2 st3 c) :
    TaskMonoAt st1 st3 c :=
  ⟨h23.1.trans h12.1, fun h => h23.2 (h12.2 h)⟩

theorem taskMonoAt_of_tasks_eq {st st' : SchedState} (c : TaskId)
    (h : st'.tasks = st.tasks) : TaskMonoAt st st' c := by
  constructor
  · rw [h]
  · intro hc; rw [h]; exact hc

theorem taskMonoAt_update (st : SchedState) (id : TaskId) (f : TaskRec → TaskRec)
    (c : TaskId)
    (h1 : ∀ t, (f t).invokedCount = t.invokedCount)
    (h2 : ∀ t, t.abortedFlag = true ∨ t.done = true →
      (f t).abortedFlag = true ∨ (f t).done = true) :
    TaskMonoAt st (updateTask st id f) c := by
  constructor
  · rw [updateTask_tasks]
    split
    · next h => subst h; exact h1 _
    · rfl
  · intro hc
    rw [updateTask_tasks]
    split
    · next h => subst h; exact h2 _ hc
    · exact hc

theorem taskMonoAt_cleanup (st : SchedState) (id : TaskId) (code : IreeStatusCode)
    (c : TaskId) : TaskMonoAt st (iree_task_cleanup st id code) c := by
  constructor
  · rw [cleanup_tasks]
    split
    · next h => subst h; rfl
    · rfl
  · intro hc
    rw [cleanup_tasks]
    split
    · right; rfl
    · exact hc

theorem taskMonoAt_discard (st : SchedState) (id : TaskId) (wl : List TaskId)
    (c : TaskId) : TaskMonoAt st (iree_task_discard st id wl).1 c := by
  constructor
  · rw [discard_tasks]
    split
    · next h => subst h; rfl
    · rfl
  · intro hc
    rw [discard_tasks]
    split
    · right; rfl
    · exact hc

theorem taskMonoAt_list_discard (fuel : Nat) (st : SchedState) (wl : List TaskId)
    (c : TaskId) : TaskMonoAt st (iree_task_list_discard fuel st wl) c :=
  ⟨(list_discard_tasks_mono fuel st wl c).1, (list_discard_tasks_mono fuel st wl c).2⟩

/-- Retiring any task — with any status and any fuel — never invokes a
closure and never clears flagged-or-dead. -/
theorem taskMonoAt_retire (fuel : Nat) (st : SchedState) (id : TaskId)
    (status : IreeStatus) (c : TaskId) :
    TaskMonoAt st (iree_task_retire fuel st id status) c := by
  have hm1 : TaskMonoAt st (updateTask st id fun t => { t with completion := none }) c :=
    taskMonoAt_update _ _ _ _ (fun _ => rfl) (fun _ h => h)
  unfold iree_task_retire
  cases hcomp : (st.tasks id).completion with
  | none =>
    simp only [hcomp]
    split
    · exact taskMonoAt_trans hm1 (taskMonoAt_cleanup _ _ _ _)
    · exact taskMonoAt_trans hm1 (taskMonoAt_trans
        (taskMonoAt_of_tasks_eq c (scope_fail_tasks _ _ _))
        (taskMonoAt_cleanup _ _ _ _))
  | some c' =>
    simp only [hcomp]
    have hm2 : TaskMonoAt st (updateTask (updateTask st id fun t =>
        { t with completion := none }) c' fun t => { t with pending := t.pending - 1 }) c :=
      taskMonoAt_trans hm1 (taskMonoAt_update _ _ _ _ (fun _ => rfl) (fun _ h => h))
    split
    · split
      · exact taskMonoAt_trans hm2 (taskMonoAt_trans (taskMonoAt_cleanup _ _ _ _)
          (taskMonoAt_of_tasks_eq c rfl))
      · exact taskMonoAt_trans hm2 (taskMonoAt_cleanup _ _ _ _)
    · have hm4 : TaskMonoAt st (iree_task_cleanup (iree_task_scope_fail
          (updateTask (updateTask st id fun t => { t with completion := none }) c'
            fun t => { t with pending := t.pending - 1 }) id status) id .aborted) c :=
        taskMonoAt_trans hm2 (taskMonoAt_trans
          (taskMonoAt_of_tasks_eq c (scope_fail_tasks _ _ _))
          (taskMonoAt_cleanup _ _ _ _))
      split
      · exact taskMonoAt_trans hm4 (taskMonoAt_trans (taskMonoAt_discard _ _ _ _)
          (taskMonoAt_list_discard _ _ _ _))
      · exact taskMonoAt_trans hm4
          (taskMonoAt_update _ _ _ _ (fun _ => rfl) (fun _ _ => Or.inl rfl))

/-- Executing a CALL leaves task `c` untouched whenever `c` is a different
task or `c` carries the ABORTED flag (the flag check skips the closure). -/
theorem taskMonoAt_call_execute (fuel : Nat) (st : SchedState) (id : TaskId)
    (c : TaskId) (h : c ≠ id ∨ (st.tasks id).abortedFlag = true) :
    TaskMonoAt st (iree_task_call_execute fuel st id) c := by
  have key : ∀ s1 : SchedState, TaskMonoAt st s1 c →
      TaskMonoAt st (if (s1.tasks id).pending = 0 then
        iree_task_retire fuel (updateTask s1 id fun t => { t with statusSlot := .ok }) id
          (s1.tasks id).statusSlot
      else s1) c := by
    intro s1 h1
    split
    · exact taskMonoAt_trans h1 (taskMonoAt_trans
        (taskMonoAt_update s1 id (fun t => { t with statusSlot := .ok }) c
          (fun _ => rfl) (fun _ hh => hh))
        (taskMonoAt_retire _ _ _ _ _))
    · exact h1
  have hm1 : TaskMonoAt st (if (st.tasks id).abortedFlag then st
      else updateTask st id fun t =>
        { t with
            invokedCount := t.invokedCount + 1
            pending := t.pending + ((st.tasks id).script.getD (st.tasks id).invokedCount (.ok, 0)).2
            statusSlot := iree_task_try_set_status t.statusSlot
              ((st.tasks id).script.getD (st.tasks id).invokedCount (.ok, 0)).1 }) c := by
    split
    · exact taskMonoAt_refl _ _
    · next hflag =>
      rcases h with h | h
      · constructor
        · rw [updateTask_tasks, if_neg h]
        · intro hc; rw [updateTask_tasks, if_neg h]; exact hc
      · exact absurd h hflag
  exact key _ hm1

theorem taskMonoAt_barrier_retire (fuel : Nat) (st : SchedState) (id : TaskId)
    (c : TaskId) : TaskMonoAt st (iree_task_barrier_retire fuel st id) c := by
  have hfold : ∀ (l : List TaskId) (st0 : SchedState),
      TaskMonoAt st0 (l.foldl (fun acc dep =>
        let prior := (acc.tasks dep).pending
        let acc1 := updateTask acc dep fun t => { t with pending := t.pending - 1 }
        if prior = 1 then emitEv acc1 (.enqueue dep) else acc1) st0) c := by
    intro l
    induction l with
    | nil => intro st0; exact taskMonoAt_refl _ _
    | cons d ds ih =>
      intro st0
      refine taskMonoAt_trans ?_ (ih _)
      have hstep : TaskMonoAt st0 (updateTask st0 d fun t =>
          { t with pending := t.pending - 1 }) c :=
        taskMonoAt_update _ _ _ _ (fun _ => rfl) (fun _ h => h)
      simp only [List.foldl_cons]
      split
      · exact taskMonoAt_trans hstep (taskMonoAt_of_tasks_eq c rfl)
      · exact hstep
  unfold iree_task_barrier_retire
  exact taskMonoAt_trans (hfold _ _) (taskMonoAt_retire _ _ _ _ _)

theorem taskMonoAt_fence_retire (fuel : Nat) (st : SchedState) (id : TaskId)
    (c : TaskId) : TaskMonoAt st (iree_task_fence_retire fuel st id) c :=
  taskMonoAt_trans (taskMonoAt_of_tasks_eq c (scope_end_tasks st))
    (taskMonoAt_retire _ _ _ _ _)

theorem taskMonoAt_dispatch_retire (fuel : Nat) (st : SchedState) (id : TaskId)
    (c : TaskId) : TaskMonoAt st (iree_task_dispatch_retire fuel st id) c :=
  taskMonoAt_trans (taskMonoAt_update st id (fun t => { t with statusSlot := .ok }) c
      (fun _ => rfl) (fun _ h => h))
    (taskMonoAt_retire _ _ _ _ _)

/-- One scheduler step never invokes the closure of a flagged-or-dead task
and never clears the property. -/
theorem schedStep_skip_preserved {st st' : SchedState} {c : TaskId}
    (h : SchedStep st st')
    (hc : (st.tasks c).abortedFlag = true ∨ (st.tasks c).done = true) :
    (st'.tasks c).invokedCount = (st.tasks c).invokedCount ∧
    ((st'.tasks c).abortedFlag = true ∨ (st'.tasks c).done = true) := by
  cases h with
  | execCall id fuel hdone =>
    by_cases hci : c = id
    · subst hci
      have hflag : (st.tasks c).abortedFlag = true := by
        rcases hc with h | h
        · exact h
        · rw [hdone] at h; exact absurd h (by simp)
      have hm := taskMonoAt_call_execute fuel st c c (Or.inr hflag)
      exact ⟨hm.1, hm.2 hc⟩
    · have hm := taskMonoAt_call_execute fuel st id c (Or.inl hci)
      exact ⟨hm.1, hm.2 hc⟩
  | retireStep id fuel status hdone =>
    exact ⟨(taskMonoAt_retire fuel st id status c).1,
      (taskMonoAt_retire fuel st id status c).2 hc⟩
  | barrierRetire id fuel hdone =>
    exact ⟨(taskMonoAt_barrier_retire fuel st id c).1,
      (taskMonoAt_barrier_retire fuel st id c).2 hc⟩
  | fenceRetire id fuel hdone =>
    exact ⟨(taskMonoAt_fence_retire fuel st id c).1,
      (taskMonoAt_fence_retire fuel st id c).2 hc⟩
  | dispatchRetire id fuel hdone =>
    exact ⟨(taskMonoAt_dispatch_retire fuel st id c).1,
      (taskMonoAt_dispatch_retire fuel st id c).2 hc⟩

/-- C4 (amended).  If a task retires with a failure, then its immediate
completion task — when it had not yet run its closure — never runs it in any
subsequent scheduler execution: at the failed retire the completion task is
either discarded (prior pending 1) or marked ABORTED, and every later step,
under any interleaving, keeps it flagged-or-dead and skips its closure
(`iree_task_call_execute`'s ABORTED check). -/
theorem c4_completion_closure_skipped
    (fuel : Nat) (st stFinal : SchedState) (t c : TaskId) (status : IreeStatus)
    (hstatus : status ≠ .ok)
    (hcomp : (st.tasks t).completion = some c)
    (hnotrun : (st.tasks c).invokedCount = 0)
    (hsteps : Relation.ReflTransGen SchedStep (iree_task_retire fuel st t status) stFinal) :
    (stFinal.tasks c).invokedCount = 0 := by
  have hstart : ((iree_task_retire fuel st t status).tasks c).invokedCount = 0 ∧
      (((iree_task_retire fuel st t status).tasks c).abortedFlag = true ∨
        ((iree_task_retire fuel st t status).tasks c).done = true) := by
    refine ⟨(taskMonoAt_retire fuel st t status c).1.trans hnotrun, ?_⟩
    rw [retire_fail_eq fuel st t c status hcomp hstatus]
    by_cases hp : ((st.tasks c).pending == 1) = true
    · simp only [hp, if_true]
      apply (list_discard_tasks_mono fuel _ _ c).2
      rw [discard_tasks, if_pos rfl]
      right
      rfl
    · simp only [Bool.not_eq_true] at hp
      simp only [hp, Bool.false_eq_true, if_false]
      rw [updateTask_tasks, if_pos rfl]
      left
      rfl
  have main : (stFinal.tasks c).invokedCount = 0 ∧
      ((stFinal.tasks c).abortedFlag = true ∨ (stFinal.tasks c).done = true) := by
    induction hsteps with
    | refl => exact hstart
    | tail hab hstep ih =>
      obtain ⟨hinv, hfd⟩ := ih
      obtain ⟨h1, h2⟩ := schedStep_skip_preserved hstep hfd
      exact ⟨h1.trans hinv, h2⟩
  exact main.1

/-- Witness for C4 (amended): in `c3WitnessState` (task 0 failing, completion
task 1 at pending 2), the completion task's closure count is still 0 after
the failed retire (empty continuation trace). -/
theorem c4_completion_closure_skipped_witness :
    ((iree_task_retire 4 c3WitnessState 0 (.err (.unknown 5) 1)).tasks 1).invokedCount = 0 :=
  c4_completion_closure_skipped 4 c3WitnessState
    (iree_task_retire 4 c3WitnessState 0 (.err (.unknown 5) 1)) 0 1
    (.err (.unknown 5) 1) (by decide) (by decide) (by decide)
    Relation.ReflTransGen.refl

/-- A diamond graph: task 0 (CALL, fails) and task 1 (CALL, succeeds) both
complete into task 2 (CALL, pending 2), whose completion is task 3 (CALL).
Task 3 is transitively reachable from task 0 via completion edges. -/
def c4CounterexampleState : SchedState :=
  { tasks := fun id =>
      if id = 0 then { ttype := .tCall, script := [(.err (.unknown 1) 0, 0)], completion := some 2 }
      else if id = 1 then { ttype := .tCall, script := [(.ok, 0)], completion := some 2 }
      else if id = 2 then { ttype := .tCall, script := [(.ok, 0)], pending := 2, completion := some 3 }
      else if id = 3 then { ttype := .tCall, script := [(.ok, 0)], pending := 1 }
      else {}
    events := [] }

/-- C4 as claimed is false: transitive propagation stops at an
ABORTED-flagged completion task with other unsatisfied dependencies.  In the
diamond `c4CounterexampleState`, executing task 0 (fails; completion task 2
still has pending 2, so task 2 is only flagged), then task 1 (succeeds;
task 2 becomes ready), then task 2 (flag observed, closure skipped — but it
retires with OK and enqueues task 3 normally), then task 3: task 3 runs its
closure even though it had not executed at failure time, is transitively
reachable from the failed task 0 via completion edges, and the scope holds
the failure. -/
theorem c4_transitive_discard_counterexample :
    (c4CounterexampleState.tasks 0).completion = some 2 ∧
    (c4CounterexampleState.tasks 2).completion = some 3 ∧
    (c4CounterexampleState.tasks 3).invokedCount = 0 ∧
    Ev.scopeFail 0 (.err (.unknown 1) 0)
      ∈ (iree_task_call_execute 9 c4CounterexampleState 0).events ∧
    ((iree_task_call_execute 9 c4CounterexampleState 0).tasks 2).abortedFlag = true ∧
    ((iree_task_call_execute 9 (iree_task_call_execute 9 (iree_task_call_execute 9
        (iree_task_call_execute 9 c4CounterexampleState 0) 1) 2) 3).tasks 2).invokedCount = 0 ∧
    ((iree_task_call_execute 9 (iree_task_call_execute 9 (iree_task_call_execute 9
        (iree_task_call_execute 9 c4CounterexampleState 0) 1) 2) 3).tasks 3).invokedCount = 1 ∧
    (iree_task_call_execute 9 (iree_task_call_execute 9 (iree_task_call_execute 9
        (iree_task_call_execute 9 c4CounterexampleState 0) 1) 2) 3).scopeStatus
      = .err (.unknown 1) 0 := by
  decide

/-! ## Shard execution (C2)

`iree_task_dispatch_shard_execute` (part_001:888-995) loops: atomically
fetch-add `tiles_per_reservation` onto the shared 32-bit tile cursor, exit if
the returned base is at or past `tile_count`, otherwise process tile indices
`[base, min(base + tiles_per_reservation, tile_count))`, decomposing each by
successive division by `workgroup_count_x` then `workgroup_count_y`.

The atomic cursor serializes the fetch-adds of all shards of the dispatch:
whichever shard performs the `k`-th fetch-add overall receives the base
`(k * tiles_per_reservation) mod 2^32` (the cursor is a `uint32_t` and the
addition wraps).  Which shard performs which fetch is irrelevant to which
tiles get processed, so the reservation sequence below (indexed by the fetch
serial number `k`) models the combined execution of all shards. -/

/-- The base returned by the `k`-th fetch-add on the 32-bit tile cursor
(part_001:936-938, 978-980). -/
def shardFetchBase (tpr k : Nat) : Nat :=
  (k * tpr) % 2 ^ 32

/-- Field `workgroup_xyz` computed by the shard's inner loop for tile index `i`
(part_001:946-951): successive division by `count_x` then `count_y`. -/
def shardDecompose (cx cy i : Nat) : Nat × Nat × Nat :=
  (i % cx, (i / cx) % cy, i / cx / cy)

/-- The inner tile loop over a list of tile indices (part_001:942-976):
invoke the closure on each decomposed index in order, stopping at the first
failure.  Returns the indices actually processed and the final status. -/
def shardRunIndices (closure : TileClosure) (cx cy : Nat) :
    List Nat → List Nat × IreeStatus
  | [] => ([], .ok)
  | i :: rest =>
    let r := closure (shardDecompose cx cy i)
    if r.1 = .ok then
      let tail := shardRunIndices closure cx cy rest
      (i :: tail.1, tail.2)
    else
      ([i], r.1)

/-- One iteration of the shard while-loop for the reservation starting at
`base` (part_001:939-976): `tile_range = iree_min(tile_base +
tiles_per_reservation, tile_count)` (part_001:940-941), where the sum
`tile_base + tiles_per_reservation` is a `uint32_t` addition and wraps
modulo `2 ^ 32`; the indices `[base, tile_range)` are then processed (an
empty range happens when `tile_range ≤ base`). -/
def shardProcessReservation (closure : TileClosure) (cx cy tc tpr base : Nat) :
    List Nat × IreeStatus :=
  shardRunIndices closure cx cy
    (List.range' base (min ((base + tpr) % 2 ^ 32) tc - base))

/-- With no tile failure the inner loop processes its whole index list. -/
theorem shardRunIndices_all_ok (closure : TileClosure) (cx cy : Nat)
    (hok : ∀ x y z, (closure (x, y, z)).1 = .ok) :
    ∀ l : List Nat, (shardRunIndices closure cx cy l).1 = l := by
  intro l
  induction l with
  | nil => rfl
  | cons i rest ih =>
    have h : (closure (shardDecompose cx cy i)).1 = .ok := hok _ _ _
    simp [shardRunIndices, h, ih]

/-- C2 (amended).  Provided the fetch-add sequence stays strictly below the
32-bit wrap point (`F * tpr < 2 ^ 32` for the `F` fetch-adds performed, so
neither a returned base nor an inner `tile_base + tiles_per_reservation`
bound wraps, where every productive fetch occurs: `⌈tc / tpr⌉ ≤ F`), and no
tile fails: every tile index in `[0, tile_count)` lies in exactly one
reservation's processed list; every processed index is inside the grid; a
fetch that is performed (`k < F`) processes nothing — the shard exits —
exactly when its base is at or past `tile_count`; and each index decomposes
by successive division by `count_x` then `count_y` into an in-grid
`(x, y, z)` with `x + count_x * (y + count_y * z)` recomposing the index. -/
theorem c2_shard_tiles_exactly_once
    (cx cy cz tc tpr F : Nat) (closure : TileClosure)
    (htc : tc = cx * cy * cz)
    (hcx : 0 < cx) (hcy : 0 < cy) (hcz : 0 < cz)
    (htpr : 0 < tpr)
    (hF : (tc + tpr - 1) / tpr ≤ F)
    (hnowrap : F * tpr < 2 ^ 32)
    (hok : ∀ x y z, (closure (x, y, z)).1 = .ok) :
    (∀ i, i < tc → ∃! k, k < F ∧
        i ∈ (shardProcessReservation closure cx cy tc tpr (shardFetchBase tpr k)).1) ∧
    (∀ k i, i ∈ (shardProcessReservation closure cx cy tc tpr (shardFetchBase tpr k)).1 →
        i < tc) ∧
    (∀ k, k < F →
      ((shardProcessReservation closure cx cy tc tpr (shardFetchBase tpr k)).1 = []
        ↔ tc ≤ shardFetchBase tpr k)) ∧
    (∀ i, i < tc →
      (shardDecompose cx cy i).1 < cx ∧
      (shardDecompose cx cy i).2.1 < cy ∧
      (shardDecompose cx cy i).2.2 < cz ∧
      (shardDecompose cx cy i).1 + cx * ((shardDecompose cx cy i).2.1
        + cy * (shardDecompose cx cy i).2.2) = i) := by
  have hrun : ∀ base, (shardProcessReservation closure cx cy tc tpr base).1
      = List.range' base (min ((base + tpr) % 2 ^ 32) tc - base) := fun base =>
    shardRunIndices_all_ok closure cx cy hok _
  have hlt : ∀ k, k < F → k * tpr + tpr < 2 ^ 32 := by
    intro k hk
    have h2 : (k + 1) * tpr ≤ F * tpr := Nat.mul_le_mul_right tpr hk
    rw [Nat.succ_mul] at h2
    omega
  have hbase : ∀ k, k < F → shardFetchBase tpr k = k * tpr := by
    intro k hk
    have := hlt k hk
    apply Nat.mod_eq_of_lt
    omega
  have hmem : ∀ base i, base + tpr < 2 ^ 32 →
      (i ∈ List.range' base (min ((base + tpr) % 2 ^ 32) tc - base)
        ↔ (base ≤ i ∧ i < base + tpr ∧ i < tc)) := by
    intro base i hb
    rw [Nat.mod_eq_of_lt hb, List.mem_range'_1]
    rcases Nat.le_total (base + tpr) tc with hm | hm
    · rw [Nat.min_eq_left hm]
      omega
    · rw [Nat.min_eq_right hm]
      omega
  refine ⟨?_, ?_, ?_, ?_⟩
  · intro i hi
    have hdm := Nat.div_add_mod i tpr
    have hml := Nat.mod_lt i htpr
    have hkF : i / tpr < F := by
      have h1 : i / tpr ≤ (tc - 1) / tpr := Nat.div_le_div_right (by omega)
      have h2 : (tc - 1 + tpr) / tpr = (tc - 1) / tpr + 1 := Nat.add_div_right _ htpr
      have h3 : tc - 1 + tpr = tc + tpr - 1 := by omega
      rw [h3] at h2
      omega
    refine ⟨i / tpr, ⟨hkF, ?_⟩, ?_⟩
    · rw [hrun, hbase _ hkF, hmem _ _ (hlt _ hkF)]
      have hle : i / tpr * tpr ≤ i := Nat.div_mul_le_self i tpr
      have hmul : tpr * (i / tpr) = i / tpr * tpr := Nat.mul_comm _ _
      refine ⟨hle, ?_, hi⟩
      omega
    · intro k' hk'
      rw [hrun, hbase _ hk'.1, hmem _ _ (hlt _ hk'.1)] at hk'
      have hlo : k' ≤ i / tpr := (Nat.le_div_iff_mul_le htpr).mpr hk'.2.1
      have hhi : i / tpr < k' + 1 := by
        apply (Nat.div_lt_iff_lt_mul htpr).mpr
        have hsm : (k' + 1) * tpr = k' * tpr + tpr := Nat.succ_mul k' tpr
        omega
      omega
  · intro k i h
    rw [hrun, List.mem_range'_1] at h
    rcases Nat.le_total ((shardFetchBase tpr k + tpr) % 2 ^ 32) tc with hm | hm
    · rw [Nat.min_eq_left hm] at h
      omega
    · rw [Nat.min_eq_right hm] at h
      omega
  · intro k hk
    rw [hrun, hbase _ hk, List.range'_eq_nil]
    have hb := hlt k hk
    rw [Nat.mod_eq_of_lt hb]
    rcases Nat.le_total (k * tpr + tpr) tc with hm | hm
    · rw [Nat.min_eq_left hm]
      omega
    · rw [Nat.min_eq_right hm]
      omega
  · intro i hi
    rw [htc] at hi
    refine ⟨Nat.mod_lt i hcx, Nat.mod_lt _ hcy, ?_, ?_⟩
    · show i / cx / cy < cz
      rw [Nat.div_div_eq_div_mul]
      exact Nat.div_lt_of_lt_mul hi
    · show i % cx + cx * ((i / cx) % cy + cy * (i / cx / cy)) = i
      rw [Nat.mod_add_div (i / cx) cy]
      exact Nat.mod_add_div i cx

/-- Witness for C2: a 2×3×1 grid (6 tiles) with 4 tiles per reservation and
3 fetches: reservations `[0,4)` and `[4,6)`, third fetch empty. -/
theorem c2_shard_tiles_exactly_once_witness :
    (∀ i, i < 6 → ∃! k, k < 3 ∧
        i ∈ (shardProcessReservation (fun _ => (.ok, 0)) 2 3 6 4 (shardFetchBase 4 k)).1) ∧
    (∀ k i, i ∈ (shardProcessReservation (fun _ => (.ok, 0)) 2 3 6 4 (shardFetchBase 4 k)).1 →
        i < 6) ∧
    (∀ k, k < 3 →
      ((shardProcessReservation (fun _ => (.ok, 0)) 2 3 6 4 (shardFetchBase 4 k)).1 = []
        ↔ 6 ≤ shardFetchBase 4 k)) ∧
    (∀ i, i < 6 →
      (shardDecompose 2 3 i).1 < 2 ∧
      (shardDecompose 2 3 i).2.1 < 3 ∧
      (shardDecompose 2 3 i).2.2 < 1 ∧
      (shardDecompose 2 3 i).1 + 2 * ((shardDecompose 2 3 i).2.1
        + 3 * (shardDecompose 2 3 i).2.2) = i) :=
  c2_shard_tiles_exactly_once 2 3 1 6 4 3 (fun _ => (.ok, 0))
    (by decide) (by decide) (by decide) (by decide) (by decide)
    (by decide) (by norm_num) (fun _ _ _ => rfl)

/-- C2 as claimed (for every dispatch with positive tile count) is false at
the 32-bit boundary: with `tile_count = 2^32 - 1` (a legal
`(2^32-1) × 1 × 1` grid) and `tiles_per_reservation = 8`, every fetched base
`(8k) mod 2^32` with `k < 2^29` is below `tile_count`, so the shards keep
fetching; the `2^29`-th fetch-add wraps the `uint32_t` cursor to 0 and its
reservation processes tiles `[0, 8)` a second time (and no base ever reaches
`tile_count`, so the loop cannot exit).  Tile 0 is processed by reservation 0
and again by reservation `2^29`. -/
theorem c2_cursor_wrap_counterexample :
    (2 ^ 32 - 1) * 1 * 1 = (2 ^ 32 - 1 : Nat) ∧
    (0 : Nat) < 2 ^ 32 - 1 ∧
    (2 ^ 29 : Nat) ≠ 0 ∧
    shardFetchBase 8 0 = 0 ∧
    shardFetchBase 8 (2 ^ 29) = 0 ∧
    0 ∈ (shardProcessReservation (fun _ => (.ok, 0)) (2 ^ 32 - 1) 1 (2 ^ 32 - 1) 8
        (shardFetchBase 8 0)).1 ∧
    0 ∈ (shardProcessReservation (fun _ => (.ok, 0)) (2 ^ 32 - 1) 1 (2 ^ 32 - 1) 8
        (shardFetchBase 8 (2 ^ 29))).1 := by
  decide

/-- C1.  The spec claims the slice issue step partitions the grid with an
outer *ceiling* division so that the slice boxes cover the whole grid.  The
source (part_001:526-528) instead computes
`slice_count = iree_max(1, workgroup_count / tiles_per_slice)` — a floor
division clamped to at least 1 — so when the count is larger than the
tiles-per-slice block but not a multiple of it, the trailing tiles are in no
slice.  Concretely, with the configured block `(8, 4, 1)` and workgroup count
`(9, 1, 1)` a single slice `[0,7]×[0,0]×[0,0]` is created and tile `(8,0,0)`,
although inside `[0,9)×[0,1)×[0,1)`, belongs to no created slice. -/
theorem c1_sliced_floor_division_drops_tiles :
    sliceBoxes 9 1 1 8 4 1 = [⟨0, 0, 0, 7, 0, 0⟩] ∧
    (8 < 9 ∧ 0 < 1 ∧ 0 < 1) ∧
    ∀ s ∈ sliceBoxes 9 1 1 8 4 1, ¬ sliceContains s 8 0 0 := by
  decide

end IreeTask
